import Mathlib

/-!
Shallow embedding of the homex-script inventory-reconciliation program
(`src/type.py`, `src/io_util.py`, `src/sheet.py`, `src/merge.py`, `src/ai.py`).

Python `StrEnum` members created with `auto()` carry the lower-cased member
name as their string value; the embedding reproduces those exact strings.
Remote collaborators (Gemini LLM, Qdrant vector store) are modelled as
oracles supplied in the environment, and every remote invocation is counted
so that claims about "no remote calls" can be stated.  Spreadsheet cell
payloads other than `Id` and `Code` are carried as an association list of
strings; the merge logic never inspects them.
-/

namespace HomeX

/-- `Provider` (type.py): `StrEnum` with `auto()` values, i.e. the value of
`Haller` is `"haller"`, of `WeltmanPrinceton` is `"weltmanprinceton"`, etc. -/
inductive Provider
  | haller
  | gem
  | universe'
  | weltmanPrinceton
deriving DecidableEq, Repr, Fintype

/-- The `.value` of each `Provider` member (Python `StrEnum` + `auto()`
lower-cases the member name). -/
def Provider.value : Provider → String
  | .haller => "haller"
  | .gem => "gem"
  | .universe' => "universe"
  | .weltmanPrinceton => "weltmanprinceton"

/-- Inverse of `Provider.value`: Python's `Provider(string)` constructor,
which raises `ValueError` (here: `none`) on an unknown value. -/
def Provider.ofValue : String → Option Provider
  | "haller" => some .haller
  | "gem" => some .gem
  | "universe" => some .universe'
  | "weltmanprinceton" => some .weltmanPrinceton
  | _ => none

/-- Declaration order of the `Provider` enum members (Python iterates an
enum class in declaration order). -/
def providerDeclOrder : List Provider :=
  [.haller, .gem, .universe', .weltmanPrinceton]

/-- `sorted_providers = sorted(Provider, key=lambda p: p.value)` (type.py).
Python compares strings codepoint-lexicographically, which is the `≤` of
the strings' character lists; Python's sort is stable, and so is
`insertionSort` (the keys are distinct anyway). -/
def sorted_providers : List Provider :=
  providerDeclOrder.insertionSort (fun a b => a.value.data ≤ b.value.data)

/-- `SheetName` (type.py): values are the explicit strings
`'Materials'` and `'Equipment'`. -/
inductive SheetName
  | materials
  | equipment
deriving DecidableEq, Repr, Fintype

def SheetName.value : SheetName → String
  | .materials => "Materials"
  | .equipment => "Equipment"

def SheetName.ofValue : String → Option SheetName
  | "Materials" => some .materials
  | "Equipment" => some .equipment
  | _ => none

/-- Declaration order of `SheetName` members. -/
def sheetDeclOrder : List SheetName := [.materials, .equipment]

/-- `sorted(self.__sheets.values(), key=lambda x: x.sheet_name.value)`
(sheet.py, `ProviderWorkbook.__init__`): the per-workbook sheet iteration
order, `'Equipment' < 'Materials'` lexicographically. -/
def sortedSheetNames : List SheetName :=
  sheetDeclOrder.insertionSort (fun a b => a.value.data ≤ b.value.data)

/-- `ItemReference` (type.py): frozen dataclass `(provider, sheet_name, id)`. -/
structure ItemReference where
  provider : Provider
  sheet_name : SheetName
  id : Int
deriving DecidableEq, Repr

/-- `MatchType` (type.py): `StrEnum` with `auto()` values, so
`ExactCode.value = "exactcode"`, `StrongLLM.value = "strongllm"`,
`HazyLLM.value = "hazyllm"`, `NoMatch.value = "nomatch"`. -/
inductive MatchType
  | exactCode
  | strongLLM
  | hazyLLM
  | noMatch
deriving DecidableEq, Repr, Fintype

def MatchType.value : MatchType → String
  | .exactCode => "exactcode"
  | .strongLLM => "strongllm"
  | .hazyLLM => "hazyllm"
  | .noMatch => "nomatch"

/-- The four record dataclasses `ExactCodeMatch`, `StrongLLMMatch`,
`HazyLLMMatch`, `NoMatch` (type.py), modelled as one closed sum.
The first three carry a `match` reference; `NoMatch` does not. -/
inductive ItemMerge
  | exactCode (query : ItemReference) (match_ : ItemReference)
  | strongLLM (query : ItemReference) (match_ : ItemReference)
  | hazyLLM (query : ItemReference) (match_ : ItemReference)
  | noMatch (query : ItemReference)
deriving DecidableEq, Repr

/-- The `query` field shared by all four record variants. -/
def ItemMerge.query : ItemMerge → ItemReference
  | .exactCode q _ => q
  | .strongLLM q _ => q
  | .hazyLLM q _ => q
  | .noMatch q => q

/-- The `type` field of each record (a class-level default in type.py). -/
def ItemMerge.type : ItemMerge → MatchType
  | .exactCode _ _ => .exactCode
  | .strongLLM _ _ => .strongLLM
  | .hazyLLM _ _ => .hazyLLM
  | .noMatch _ => .noMatch

/-- The `match` field where present (`none` for `NoMatch`). -/
def ItemMerge.matchRef : ItemMerge → Option ItemReference
  | .exactCode _ m => some m
  | .strongLLM _ m => some m
  | .hazyLLM _ m => some m
  | .noMatch _ => none

/-- JSON-like values as produced by the `to_dict` methods and consumed by
`json.dump`/`json.load` (io_util.py).  Objects keep field order, which is
what Python dicts do. -/
inductive JValue
  | str (s : String)
  | int (n : Int)
  | obj (fields : List (String × JValue))
  | arr (elems : List JValue)

/-- Python `dict.get(key)` on an object value; `none` on non-objects. -/
def JValue.get : JValue → String → Option JValue
  | .obj fields, key => fields.lookup key
  | _, _ => none

/-- Whether an object value carries the given key. -/
def JValue.hasKey (j : JValue) (key : String) : Bool :=
  (j.get key).isSome

/-- `ItemReference.to_dict` (type.py). -/
def ItemReference.to_dict (r : ItemReference) : JValue :=
  .obj [("provider", .str r.provider.value),
        ("sheet_name", .str r.sheet_name.value),
        ("id", .int r.id)]

/-- `ItemReference.from_dict` (type.py): key accesses raise `KeyError` on a
missing key and the enum constructors raise `ValueError` on an unknown
value; both are modelled as `Except.error`. -/
def ItemReference.from_dict (j : JValue) : Except String ItemReference :=
  match j.get "provider", j.get "sheet_name", j.get "id" with
  | some (.str p), some (.str s), some (.int i) =>
    match Provider.ofValue p, SheetName.ofValue s with
    | some provider, some sheet_name => .ok ⟨provider, sheet_name, i⟩
    | _, _ => .error "ValueError"
  | _, _, _ => .error "KeyError"

/-- The `to_dict` of each record class (type.py): a `type` tag holding the
`MatchType` value string, the serialized `query`, and — except for
`NoMatch` — the serialized `match`. -/
def ItemMerge.to_dict : ItemMerge → JValue
  | .exactCode q m =>
    .obj [("type", .str MatchType.exactCode.value),
          ("query", q.to_dict), ("match", m.to_dict)]
  | .strongLLM q m =>
    .obj [("type", .str MatchType.strongLLM.value),
          ("query", q.to_dict), ("match", m.to_dict)]
  | .hazyLLM q m =>
    .obj [("type", .str MatchType.hazyLLM.value),
          ("query", q.to_dict), ("match", m.to_dict)]
  | .noMatch q =>
    .obj [("type", .str MatchType.noMatch.value),
          ("query", q.to_dict)]

/-- `from_dict` of the three match-carrying record classes (type.py). -/
def matchPairFromDict (j : JValue) : Except String (ItemReference × ItemReference) :=
  match j.get "query", j.get "match" with
  | some qj, some mj =>
    match ItemReference.from_dict qj, ItemReference.from_dict mj with
    | .ok q, .ok m => .ok (q, m)
    | .error e, _ => .error e
    | _, .error e => .error e
  | _, _ => .error "KeyError"

/-- `deserialize_merge` (io_util.py): dispatch on the `type` tag; a missing
or unknown tag raises `ValueError`.  The comparisons `merge_type ==
MatchType.X` compare the loaded string with the member's value string. -/
def deserialize_merge (j : JValue) : Except String ItemMerge :=
  match j.get "type" with
  | some (.str tag) =>
    if tag = MatchType.exactCode.value then
      (matchPairFromDict j).map fun (q, m) => .exactCode q m
    else if tag = MatchType.strongLLM.value then
      (matchPairFromDict j).map fun (q, m) => .strongLLM q m
    else if tag = MatchType.hazyLLM.value then
      (matchPairFromDict j).map fun (q, m) => .hazyLLM q m
    else if tag = MatchType.noMatch.value then
      match j.get "query" with
      | some qj => (ItemReference.from_dict qj).map ItemMerge.noMatch
      | none => .error "KeyError"
    else .error "ValueError: Unknown merge type"
  | _ => .error "ValueError: Unknown merge type"

/-- `save_merges_to_json` (io_util.py), at the level of the JSON document
written to the checkpoint file. -/
def save_merges_to_json (merges : List ItemMerge) : JValue :=
  .arr (merges.map ItemMerge.to_dict)

/-- The element-by-element deserialization loop of `load_merges_from_json`. -/
def deserialize_merges : List JValue → Except String (List ItemMerge)
  | [] => .ok []
  | j :: rest =>
    match deserialize_merge j, deserialize_merges rest with
    | .ok m, .ok ms => .ok (m :: ms)
    | .error e, _ => .error e
    | _, .error e => .error e

/-- `load_merges_from_json` (io_util.py): parse the JSON document and
deserialize each element. -/
def load_merges_from_json : JValue → Except String (List ItemMerge)
  | .arr elems => deserialize_merges elems
  | _ => .error "TypeError"

/-- `ProviderItem` (sheet.py): identity fields plus the remaining
spreadsheet cells of the row, carried as an association list keyed by
column name.  Cell payloads are modelled as strings; the matching logic
never inspects them. -/
structure ProviderItem where
  provider : Provider
  sheet_name : SheetName
  id : Int
  code : String
  data : List (String × String)
deriving DecidableEq, Repr

/-- `ProviderItem.get` (sheet.py): `dict.get` over the row data. -/
def ProviderItem.get (item : ProviderItem) (key : String) : Option String :=
  item.data.lookup key

/-- `ProviderItem.to_item_ref` (sheet.py). -/
def ProviderItem.to_item_ref (item : ProviderItem) : ItemReference :=
  ⟨item.provider, item.sheet_name, item.id⟩

/-- `ItemOutput` (type.py): one output cell.  Display fields are the raw
cell payloads (`Option String`); `is_inventory` is the comparison
`get('IsInventory') == 1`, with the inventory cell modelled as `"1"`. -/
structure ItemOutput where
  match_type : Option MatchType
  category_id : Option String
  category_name : Option String
  is_inventory : Bool
  id : Int
  code : String
  name : Option String
  description : Option String
  intacct_gl_group : Option String
  unit_of_measure : Option String
  cost : Option String
deriving DecidableEq, Repr

/-- `ProviderItem.to_item_output` (sheet.py). -/
def ProviderItem.to_item_output (item : ProviderItem) (mt : Option MatchType) :
    ItemOutput where
  match_type := mt
  category_id := item.get "Category.ID"
  category_name := item.get "Category.Name"
  is_inventory := item.get "IsInventory" == some "1"
  id := item.id
  code := item.code
  name := item.get "Name"
  description := item.get "Description"
  intacct_gl_group := item.get "Intacct GL Group"
  unit_of_measure := item.get "UnitOfMeasure"
  cost := item.get "Cost"

/-- `ProviderWorkbook` (sheet.py) after successful construction: the rows of
each sheet, in spreadsheet order.  The lookup dictionaries built by the
constructor are recovered as first-match searches, which agree with the
dictionaries because construction raises on any duplicate id or code (see
`ProviderWorkbook.WF`). -/
structure ProviderWorkbook where
  provider : Provider
  sheets : SheetName → List ProviderItem

/-- All items of the workbook in the order the constructor iterates them:
sheets sorted by sheet-name value (`Equipment` before `Materials`), rows in
sheet order. -/
def ProviderWorkbook.allItems (wb : ProviderWorkbook) : List ProviderItem :=
  (sortedSheetNames.map wb.sheets).flatten

/-- `ProviderWorkbook.item_refs` (sheet.py). -/
def ProviderWorkbook.item_refs (wb : ProviderWorkbook) : List ItemReference :=
  wb.allItems.map ProviderItem.to_item_ref

/-- Sheet-level `get_item_by_id` (sheet.py): the `id → row index` dictionary,
recovered as a first-match search. -/
def sheetGetItemById (items : List ProviderItem) (id : Int) : Option ProviderItem :=
  items.find? (fun it => it.id == id)

/-- `ProviderWorkbook.get_item_by_ref` (sheet.py): select the referenced
sheet, then look the id up in it.  A miss raises `ValueError`, modelled as
`none` (impossible for refs of `item_refs` under `WF`). -/
def ProviderWorkbook.get_item_by_ref (wb : ProviderWorkbook) (ref : ItemReference) :
    Option ProviderItem :=
  sheetGetItemById (wb.sheets ref.sheet_name) ref.id

/-- `ProviderWorkbook.get_item_by_id` (sheet.py): the workbook-level
`id → item_ref` dictionary (built over `allItems`, duplicates impossible
under `WF`), then `get_item_by_ref`. -/
def ProviderWorkbook.get_item_by_id (wb : ProviderWorkbook) (id : Int) :
    Option ProviderItem :=
  (wb.allItems.find? (fun it => it.id == id)).bind
    (fun it => wb.get_item_by_ref it.to_item_ref)

/-- `ProviderWorkbook.get_item_by_code` (sheet.py): the workbook-level
`code → item_ref` dictionary, then `get_item_by_ref`. -/
def ProviderWorkbook.get_item_by_code (wb : ProviderWorkbook) (code : String) :
    Option ProviderItem :=
  (wb.allItems.find? (fun it => it.code == code)).bind
    (fun it => wb.get_item_by_ref it.to_item_ref)

/-- What successful `ProviderWorkbook` construction guarantees (sheet.py
raises `ValueError` otherwise): every row belongs to its workbook's provider
and its sheet, and ids and codes are unique across the workbook. -/
def ProviderWorkbook.WF (wb : ProviderWorkbook) : Prop :=
  (∀ s : SheetName, ∀ it ∈ wb.sheets s, it.provider = wb.provider ∧ it.sheet_name = s) ∧
  (wb.allItems.map ProviderItem.id).Nodup ∧
  (wb.allItems.map ProviderItem.code).Nodup

instance (wb : ProviderWorkbook) : Decidable wb.WF := by
  unfold ProviderWorkbook.WF; infer_instance

/-- `MatchingItem` (ai.py): the `(provider, id, code, name)` quadruple the
LLM returns for a proposed match. -/
structure MatchingItem where
  provider : Provider
  id : Int
  code : String
  name : String
deriving DecidableEq, Repr

/-- `AIResponse` (ai.py) with its pydantic `model_validator` baked in: the
two match tiers carry an item, `NoMatch` does not. -/
inductive AIResponse
  | strongMatch (item : MatchingItem) (reasoning : String)
  | hazyMatch (item : MatchingItem) (reasoning : String)
  | noMatch (reasoning : String)
deriving DecidableEq, Repr

/-- `Union[Provider, ItemReference]`: one scope term of the reference filter
list passed to `VectorStore.get_relevant_items` (merge.py / vector.py). -/
inductive ReferenceFilter
  | provider (p : Provider)
  | item (ref : ItemReference)
deriving DecidableEq, Repr

/-- Oracle for the remote collaborators (Gemini and Qdrant).  `search` is
the similarity result returned by `VectorStore.get_relevant_items`;
`initialResponse`/`followupResponse` are the outcomes of
`generate_match_response_advanced` / `generate_followup_match_response`
(`Except.error` = the call raised after exhausting its internal retries). -/
structure RemoteEnv where
  embeddingExists : ItemReference → Bool
  search : ItemReference → List ReferenceFilter → List ItemReference
  initialResponse : List ProviderItem → ProviderItem → Except String AIResponse
  followupResponse : List ProviderItem → ProviderItem → AIResponse → Except String AIResponse

/-- Counts of remote invocations: embedding-record fetches
(`VectorStore.fetch_embedding`), vector searches (`qdrant.search`), and the
two LLM entry points used by the merge (initial and follow-up). -/
structure CallCounts where
  embedding : Nat
  vectorSearch : Nat
  llmInitial : Nat
  llmFollowup : Nat
deriving DecidableEq, Repr

def CallCounts.zero : CallCounts := ⟨0, 0, 0, 0⟩

def CallCounts.add (a b : CallCounts) : CallCounts :=
  ⟨a.embedding + b.embedding, a.vectorSearch + b.vectorSearch,
   a.llmInitial + b.llmInitial, a.llmFollowup + b.llmFollowup⟩

/-- Total number of remote calls. -/
def CallCounts.total (c : CallCounts) : Nat :=
  c.embedding + c.vectorSearch + c.llmInitial + c.llmFollowup

/-- The `Merge` object's environment (merge.py constructor): the workbooks,
the designated reference provider, and the remote collaborators. -/
structure MergeEnv where
  workbooks : Provider → ProviderWorkbook
  reference_provider : Provider
  remote : RemoteEnv

/-- Exceptions the merge can raise. -/
inductive MergeError
  | loadFailure (msg : String)
  | itemMissing (ref : ItemReference)
  | embeddingMissing (ref : ItemReference)
  | aiFailure (msg : String)
  | noMatchFound (p : Provider) (id : Int) (code : String)
deriving DecidableEq, Repr

/-- `Merge.get_item_by_ref` (merge.py): dispatch to the ref's provider's
workbook. -/
def MergeEnv.get_item_by_ref (env : MergeEnv) (ref : ItemReference) :
    Option ProviderItem :=
  (env.workbooks ref.provider).get_item_by_ref ref

/-- `Merge.get_item_by_id_or_code` (merge.py): id lookup in the given
provider's workbook, falling back to code lookup. -/
def MergeEnv.get_item_by_id_or_code (env : MergeEnv) (p : Provider)
    (id : Int) (code : String) : Option ProviderItem :=
  match (env.workbooks p).get_item_by_id id with
  | some item => some item
  | none => (env.workbooks p).get_item_by_code code

/-- `[self.reference_provider] + [p for p in sorted_providers if p != self.reference_provider]`
(merge.py, used in `__get_reference_filters`, `__coalesce_merges`,
`__to_output_data`). -/
def ordered_providers (ref : Provider) : List Provider :=
  ref :: sorted_providers.filter (fun p => p ≠ ref)

/-- The NoMatch records of `merges` whose query belongs to `p`, as scope
filters — the body of the inner loop of `__get_reference_filters`. -/
def noMatchFiltersFor (merges : List ItemMerge) (p : Provider) : List ReferenceFilter :=
  merges.filterMap fun m =>
    match m with
    | .noMatch q => if q.provider = p then some (.item q) else none
    | _ => none

/-- The provider loop of `Merge.__get_reference_filters` (merge.py), with
both of its `break` statements: stop at `current_provider`, and stop right
after appending the reference provider. -/
def get_reference_filters_go (ref current : Provider) (merges : List ItemMerge) :
    List Provider → List ReferenceFilter → List ReferenceFilter
  | [], acc => acc
  | p :: rest, acc =>
    if p = current then acc
    else if p = ref then acc ++ [.provider p]
    else get_reference_filters_go ref current merges rest
      (acc ++ noMatchFiltersFor merges p)

/-- `Merge.__get_reference_filters` (merge.py). -/
def get_reference_filters (ref current : Provider) (merges : List ItemMerge) :
    List ReferenceFilter :=
  get_reference_filters_go ref current merges (ordered_providers ref) []

/-- `Merge.__evaluate_llm_match` (merge.py): a `NoMatch` tier yields a
`NoMatch` record; a match tier is resolved by id then code in the proposed
provider's workbook, `none` when resolution fails. -/
def evaluate_llm_match (env : MergeEnv) (item : ProviderItem) :
    AIResponse → Option ItemMerge
  | .noMatch _ => some (.noMatch item.to_item_ref)
  | .strongMatch mi _ =>
    (env.get_item_by_id_or_code mi.provider mi.id mi.code).map fun mit =>
      .strongLLM item.to_item_ref mit.to_item_ref
  | .hazyMatch mi _ =>
    (env.get_item_by_id_or_code mi.provider mi.id mi.code).map fun mit =>
      .hazyLLM item.to_item_ref mit.to_item_ref

/-- The list comprehension `[self.get_item_by_ref(r) for r in relevant_items]`
(merge.py, `__match_with_llm`): left-to-right, raising at the first
unresolvable reference. -/
def resolve_items (env : MergeEnv) : List ItemReference → Except MergeError (List ProviderItem)
  | [] => .ok []
  | r :: rest =>
    match env.get_item_by_ref r with
    | none => .error (.itemMissing r)
    | some it => (resolve_items env rest).map (it :: ·)

/-- `Merge.__match_with_llm` (merge.py): fetch the query embedding (raises
when absent), run the vector search, resolve the candidate references, ask
the LLM, evaluate; when evaluation fails, issue exactly one follow-up LLM
request and evaluate again; when that also fails, raise.  Paired with the
remote-call counts the function incurs. -/
def match_with_llm (env : MergeEnv) (item : ProviderItem)
    (filters : List ReferenceFilter) : Except MergeError ItemMerge × CallCounts :=
  if env.remote.embeddingExists item.to_item_ref then
    match resolve_items env (env.remote.search item.to_item_ref filters) with
    | .error e => (.error e, ⟨1, 1, 0, 0⟩)
    | .ok fullItems =>
      match env.remote.initialResponse fullItems item with
      | .error e => (.error (.aiFailure e), ⟨1, 1, 1, 0⟩)
      | .ok resp =>
        match evaluate_llm_match env item resp with
        | some merge => (.ok merge, ⟨1, 1, 1, 0⟩)
        | none =>
          match env.remote.followupResponse fullItems item resp with
          | .error e => (.error (.aiFailure e), ⟨1, 1, 1, 1⟩)
          | .ok resp2 =>
            match evaluate_llm_match env item resp2 with
            | some merge => (.ok merge, ⟨1, 1, 1, 1⟩)
            | none =>
              (.error (.noMatchFound item.provider item.id item.code), ⟨1, 1, 1, 1⟩)
  else (.error (.embeddingMissing item.to_item_ref), ⟨1, 0, 0, 0⟩)

/-- `Merge.__merge_item` (merge.py): exact-code lookup in the reference
provider's workbook short-circuits with zero remote calls; otherwise the
LLM-based path runs. -/
def merge_item (env : MergeEnv) (item : ProviderItem)
    (filters : List ReferenceFilter) : Except MergeError ItemMerge × CallCounts :=
  match (env.workbooks env.reference_provider).get_item_by_code item.code with
  | some matching_code_item =>
    (.ok (.exactCode item.to_item_ref matching_code_item.to_item_ref), CallCounts.zero)
  | none => match_with_llm env item filters

/-- The first component of `index_merges` (merge.py): the
`query → merge` dictionary.  Built by `foldl` exactly as the Python dict is
built, so a later record with the same query wins. -/
def query_to_merge (merges : List ItemMerge) (r : ItemReference) : Option ItemMerge :=
  merges.foldl (fun acc m => if m.query = r then some m else acc) none

/-- The second component of `index_merges` (merge.py): the
`match → merges` multimap; per key, records appear in ledger order. -/
def match_to_merges (merges : List ItemMerge) (r : ItemReference) : List ItemMerge :=
  merges.filter (fun m => m.matchRef == some r)

/-- `group_merges_by_provider` (merge.py): per provider, records in input
order. -/
def group_merges_by_provider (merges : List ItemMerge) (p : Provider) : List ItemMerge :=
  merges.filter (fun m => m.query.provider == p)

/-- `Merge.CHECKPOINT_INTERVAL` (merge.py). -/
def CHECKPOINT_INTERVAL : Nat := 2

/-- The mutable state of a run: the in-memory ledger, the current contents
of the checkpoint file (`none` = file absent), and the remote calls made so
far. -/
structure RunState where
  merges : List ItemMerge
  checkpoint : Option JValue
  counts : CallCounts

/-- `Merge.__save_checkpoint` (merge.py): overwrite the checkpoint file with
the serialized ledger. -/
def save_checkpoint (st : RunState) : RunState :=
  { st with checkpoint := some (save_merges_to_json st.merges) }

/-- The inner item loop of `Merge.__merge_all` (merge.py): per item, save a
checkpoint every `CHECKPOINT_INTERVAL` items, skip items found in the prior
lookup (appending the prior record), otherwise resolve the item — this
lookup sits *outside* the `try`, so its failure propagates without a
flush — and merge it inside a `try` whose handler flushes the checkpoint
before re-raising.  Returns the final state and the propagated error, if
any. -/
def merge_items_loop (env : MergeEnv) (priorLookup : ItemReference → Option ItemMerge)
    (filters : List ReferenceFilter) :
    List ItemReference → Nat → RunState → RunState × Option MergeError
  | [], _, st => (st, none)
  | r :: rest, idx, st =>
    let st := if idx % CHECKPOINT_INTERVAL = 0 then save_checkpoint st else st
    match priorLookup r with
    | some m =>
      merge_items_loop env priorLookup filters rest (idx + 1)
        { st with merges := st.merges ++ [m] }
    | none =>
      match env.get_item_by_ref r with
      | none => (st, some (.itemMissing r))
      | some item =>
        let (res, c) := merge_item env item filters
        let st := { st with counts := st.counts.add c }
        match res with
        | .ok m =>
          merge_items_loop env priorLookup filters rest (idx + 1)
            { st with merges := st.merges ++ [m] }
        | .error e => (save_checkpoint st, some e)

/-- The provider loop of `Merge.__merge_all` (merge.py): providers in
`sorted_providers` order, the reference provider skipped; the reference
filters are computed once per provider from the ledger accumulated so far. -/
def merge_providers_loop (env : MergeEnv) (priorLookup : ItemReference → Option ItemMerge) :
    List Provider → RunState → RunState × Option MergeError
  | [], st => (st, none)
  | p :: rest, st =>
    if p = env.reference_provider then merge_providers_loop env priorLookup rest st
    else
      let filters := get_reference_filters env.reference_provider p st.merges
      match merge_items_loop env priorLookup filters (env.workbooks p).item_refs 0 st with
      | (st', none) => merge_providers_loop env priorLookup rest st'
      | (st', some e) => (st', some e)

/-- `Merge.__load_prior_merges` (merge.py): no file means no prior records;
otherwise parse the file (a parse failure propagates). -/
def load_prior_merges : Option JValue → Except String (List ItemMerge)
  | none => .ok []
  | some j => load_merges_from_json j

/-- `Merge.__merge_all` (merge.py): load the prior checkpoint, then run the
provider loop.  Returns the final state (whose `merges` is the final ledger
on success) and the propagated error, if any.  Note there is no checkpoint
flush after the loops complete. -/
def merge_all (env : MergeEnv) (priorFile : Option JValue) : RunState × Option MergeError :=
  let st0 : RunState := ⟨[], priorFile, CallCounts.zero⟩
  match load_prior_merges priorFile with
  | .error e => (st0, some (.loadFailure e))
  | .ok priorList => merge_providers_loop env (query_to_merge priorList) sorted_providers st0

/-- `Merge.__coalesce_merges` (merge.py): one cluster per item reference
that is unmatched (no ledger record with that query, i.e. the reference
provider's own items) or whose record is a `NoMatch`; each cluster carries
the ledger records whose `match` points at the anchor. -/
def coalesce_merges (env : MergeEnv) (merges : List ItemMerge) :
    List (ItemReference × List ItemMerge) :=
  (ordered_providers env.reference_provider).flatMap fun p =>
    (env.workbooks p).item_refs.filterMap fun r =>
      let merged_items := match_to_merges merges r
      match query_to_merge merges r with
      | none => some (r, merged_items)
      | some (.noMatch _) => some (r, merged_items)
      | some _ => none

/-- The `max_merges_per_provider` computation of `Merge.__to_output_data`
(merge.py): maximum group size over the non-anchor providers, at least 1. -/
def max_merges_per_provider (ordered : List Provider) (baseP : Provider)
    (ms : List ItemMerge) : Nat :=
  ordered.foldl
    (fun acc p => if p = baseP then acc else max acc (group_merges_by_provider ms p).length)
    1

/-- One cell of one output row (`Merge.__to_output_data`): the anchor's
column shows the anchor item with no match type; another provider's column
shows its `i`-th matching item when one exists, `None` otherwise.  Item
resolution failures raise. -/
def output_cell (env : MergeEnv) (base_ref : ItemReference) (ms : List ItemMerge)
    (i : Nat) (p : Provider) : Except MergeError (Option ItemOutput) :=
  if p = base_ref.provider then
    match env.get_item_by_ref base_ref with
    | none => .error (.itemMissing base_ref)
    | some item => .ok (some (item.to_item_output none))
  else
    match (group_merges_by_provider ms p).get? i with
    | none => .ok none
    | some m =>
      match env.get_item_by_ref m.query with
      | none => .error (.itemMissing m.query)
      | some item => .ok (some (item.to_item_output (some m.type)))

/-- The inner per-provider loop building one output row (`row_data` in
`Merge.__to_output_data`). -/
def row_cells (env : MergeEnv) (base_ref : ItemReference) (ms : List ItemMerge)
    (i : Nat) : List Provider → Except MergeError (List (Option ItemOutput))
  | [] => .ok []
  | p :: ps =>
    match output_cell env base_ref ms i p, row_cells env base_ref ms i ps with
    | .ok c, .ok cs => .ok (c :: cs)
    | .error e, _ => .error e
    | _, .error e => .error e

/-- The per-combination-index loop of `Merge.__to_output_data`. -/
def rows_loop (env : MergeEnv) (base_ref : ItemReference) (ms : List ItemMerge)
    (ordered : List Provider) : List Nat → Except MergeError (List (List (Option ItemOutput)))
  | [] => .ok []
  | i :: is =>
    match row_cells env base_ref ms i ordered, rows_loop env base_ref ms ordered is with
    | .ok row, .ok rows => .ok (row :: rows)
    | .error e, _ => .error e
    | _, .error e => .error e

/-- The rows `Merge.__to_output_data` produces for one coalesced cluster:
one row per combination index up to `max_merges_per_provider`, each row one
cell per provider in `ordered_providers` order. -/
def output_rows_for (env : MergeEnv) (base_ref : ItemReference)
    (ms : List ItemMerge) : Except MergeError (List (List (Option ItemOutput))) :=
  let ordered := ordered_providers env.reference_provider
  rows_loop env base_ref ms ordered
    (List.range (max_merges_per_provider ordered base_ref.provider ms))

/-- `Merge.__to_output_data` (merge.py): rows of all clusters concatenated
in cluster order. -/
def to_output_data (env : MergeEnv) :
    List (ItemReference × List ItemMerge) →
    Except MergeError (List (List (Option ItemOutput)))
  | [] => .ok []
  | (base_ref, ms) :: rest =>
    match output_rows_for env base_ref ms, to_output_data env rest with
    | .ok rows, .ok rest_rows => .ok (rows ++ rest_rows)
    | .error e, _ => .error e
    | _, .error e => .error e

/-! ### `GeminiClient.generate_match_response_advanced` (ai.py)

A finer-grained model of the bounded retry loop, for the reachability claim
about its post-loop fallback.  The oracle gives, per attempt index, what the
`generate_content` call produced: a `None` text, a text with its parse
outcome, a `ClientError` with an HTTP code, or another exception. -/

inductive APIOutcome
  | textNone
  | text (parsed : Except String AIResponse)
  | clientError (code : Nat)
  | otherError (msg : String)

/-- `max_retries` of `generate_match_response_advanced` (ai.py). -/
def ADV_MAX_RETRIES : Nat := 3

/-- Result of the advanced call: a parsed response returned from inside the
loop, a raised exception, or the post-loop path (append the query item to
the revisit side list, then return the fallback `NoMatch` response). -/
inductive AdvancedResult
  | ok (resp : AIResponse)
  | raised (msg : String)
  | fallback (revisit : ItemReference) (resp : AIResponse)

/-- The `for attempt in range(max_retries + 1)` loop of
`generate_match_response_advanced` (ai.py), with fuel counting the
iterations left; exhausted fuel is the loop finishing, which falls through
to `add_to_revisit_list` plus the fallback `NoMatch` response.  A `None`
text retries below the attempt cap and raises at it; a parsed text returns;
a parse failure raises; a 429 `ClientError` retries below the cap; every
other exception raises. -/
def advanced_loop (outc : Nat → APIOutcome) (query : ItemReference) :
    Nat → Nat → AdvancedResult
  | 0, _ => .fallback query (.noMatch "Fallback NoMatch")
  | fuel + 1, attempt =>
    match outc attempt with
    | .textNone =>
      if attempt < ADV_MAX_RETRIES then advanced_loop outc query fuel (attempt + 1)
      else .raised "API returned None response"
    | .text (.ok r) => .ok r
    | .text (.error e) => .raised e
    | .clientError code =>
      if code = 429 ∧ attempt < ADV_MAX_RETRIES then
        advanced_loop outc query fuel (attempt + 1)
      else .raised "ClientError"
    | .otherError e => .raised e

/-- `generate_match_response_advanced` (ai.py): run the loop from attempt 0
with `max_retries + 1` iterations available. -/
def generate_match_response_advanced (outc : Nat → APIOutcome)
    (query : ItemReference) : AdvancedResult :=
  advanced_loop outc query (ADV_MAX_RETRIES + 1) 0

/-! ### Concrete instances used as witnesses -/

/-- Reference item `Haller (id=1, code="X100")` of the spec's scenario. -/
def hallerItem1 : ProviderItem := ⟨.haller, .materials, 1, "X100", []⟩

def refHaller1 : ItemReference := ⟨.haller, .materials, 1⟩

def refGem55 : ItemReference := ⟨.gem, .materials, 55⟩

def refGem7 : ItemReference := ⟨.gem, .materials, 7⟩

def refUniverse3 : ItemReference := ⟨.universe', .equipment, 3⟩

/-- A ledger holding one record of each of the four variants. -/
def sampleLedger : List ItemMerge :=
  [.exactCode refGem55 refHaller1, .strongLLM refGem7 refHaller1,
   .hazyLLM refUniverse3 refHaller1, .noMatch refGem7]

def gemItem11 : ProviderItem := ⟨.gem, .materials, 11, "G11", []⟩

def gemItem12 : ProviderItem := ⟨.gem, .materials, 12, "G12", []⟩

def gemItem13 : ProviderItem := ⟨.gem, .materials, 13, "G13", []⟩

def universeItem21 : ProviderItem := ⟨.universe', .materials, 21, "U21", []⟩

/-- Query item `Gem (id=55, code="X100")` of the spec's scenario. -/
def gemItem55 : ProviderItem := ⟨.gem, .materials, 55, "X100", []⟩

/-- A `Gem` item whose code matches nothing. -/
def gemItem7 : ProviderItem := ⟨.gem, .materials, 7, "G7", []⟩

/-- A workbook with the given equipment and materials rows. -/
def mkWorkbook (p : Provider) (equipmentRows materialsRows : List ProviderItem) :
    ProviderWorkbook where
  provider := p
  sheets := fun s => match s with
    | .equipment => equipmentRows
    | .materials => materialsRows

/-- A remote oracle whose LLM always answers `NoMatch` and whose vector
store finds every embedding but returns no neighbors. -/
def quietRemote : RemoteEnv where
  embeddingExists := fun _ => true
  search := fun _ _ => []
  initialResponse := fun _ _ => .ok (.noMatch "nothing alike")
  followupResponse := fun _ _ _ => .ok (.noMatch "still nothing")

/-- Environment A: `Haller` (reference) holds `hallerItem1`; `Gem` holds
`gemItem55` with the same code. -/
def envA : MergeEnv where
  workbooks := fun p => match p with
    | .haller => mkWorkbook .haller [] [hallerItem1]
    | .gem => mkWorkbook .gem [] [gemItem55]
    | .universe' => mkWorkbook .universe' [] []
    | .weltmanPrinceton => mkWorkbook .weltmanPrinceton [] []
  reference_provider := .haller
  remote := quietRemote

/-- Environment B: `Gem` holds one item with no code overlap and the LLM
call raises. -/
def envB : MergeEnv where
  workbooks := fun p => match p with
    | .haller => mkWorkbook .haller [] []
    | .gem => mkWorkbook .gem [] [gemItem7]
    | .universe' => mkWorkbook .universe' [] []
    | .weltmanPrinceton => mkWorkbook .weltmanPrinceton [] []
  reference_provider := .haller
  remote := { quietRemote with initialResponse := fun _ _ => .error "API failure" }

/-- Environment C: `Gem` holds one item with no code overlap and the LLM
answers `NoMatch`. -/
def envC : MergeEnv where
  workbooks := fun p => match p with
    | .haller => mkWorkbook .haller [] []
    | .gem => mkWorkbook .gem [] [gemItem7]
    | .universe' => mkWorkbook .universe' [] []
    | .weltmanPrinceton => mkWorkbook .weltmanPrinceton [] []
  reference_provider := .haller
  remote := quietRemote

/-- Environment E: the fan-out scenario — reference `Haller` holds one
anchor item; `Gem` holds three items and `Universe` one, all matched to the
anchor. -/
def envE : MergeEnv where
  workbooks := fun p => match p with
    | .haller => mkWorkbook .haller [] [hallerItem1]
    | .gem => mkWorkbook .gem [] [gemItem11, gemItem12, gemItem13]
    | .universe' => mkWorkbook .universe' [] [universeItem21]
    | .weltmanPrinceton => mkWorkbook .weltmanPrinceton [] []
  reference_provider := .haller
  remote := quietRemote

/-- The cluster records of the fan-out scenario: three `Gem` matches and
one `Universe` match, all pointing at the `Haller` anchor. -/
def msE : List ItemMerge :=
  [.strongLLM gemItem11.to_item_ref refHaller1,
   .strongLLM gemItem12.to_item_ref refHaller1,
   .hazyLLM gemItem13.to_item_ref refHaller1,
   .strongLLM universeItem21.to_item_ref refHaller1]

/-- Environment D: the follow-up protocol scenario — the initial LLM answer
proposes `(Haller, id=999, code="Z1")`, which resolves to nothing; the
follow-up proposes `hallerItem1`, which resolves. -/
def envD : MergeEnv where
  workbooks := fun p => match p with
    | .haller => mkWorkbook .haller [] [hallerItem1]
    | .gem => mkWorkbook .gem [] [gemItem7]
    | .universe' => mkWorkbook .universe' [] []
    | .weltmanPrinceton => mkWorkbook .weltmanPrinceton [] []
  reference_provider := .haller
  remote :=
    { quietRemote with
      search := fun _ _ => [hallerItem1.to_item_ref]
      initialResponse := fun _ _ => .ok (.strongMatch ⟨.haller, 999, "Z1", "ghost"⟩ "looks right")
      followupResponse := fun _ _ _ => .ok (.strongMatch ⟨.haller, 1, "X100", "real"⟩ "verified") }

/-- What `load_workbooks` guarantees about the orchestrator's environment:
each provider's workbook was successfully constructed and belongs to that
provider. -/
def EnvWF (env : MergeEnv) : Prop :=
  ∀ p : Provider, (env.workbooks p).WF ∧ (env.workbooks p).provider = p

instance (env : MergeEnv) : Decidable (EnvWF env) := by
  unfold EnvWF; infer_instance

/-! ## Basic computation facts -/

/-- `sorted(Provider, key=value)` evaluated:
`"gem" < "haller" < "universe" < "weltmanprinceton"`. -/
theorem sorted_providers_eq :
    sorted_providers = [.gem, .haller, .universe', .weltmanPrinceton] := by decide

/-- `'Equipment' < 'Materials'`: workbook construction iterates the
Equipment sheet first. -/
theorem sortedSheetNames_eq : sortedSheetNames = [.equipment, .materials] := by decide

theorem provider_ofValue_value (p : Provider) : Provider.ofValue p.value = some p := by
  cases p <;> rfl

theorem sheetName_ofValue_value (s : SheetName) : SheetName.ofValue s.value = some s := by
  cases s <;> rfl

/-! ## Serialization round-trip lemmas -/

theorem ItemReference.from_to_dict (r : ItemReference) :
    ItemReference.from_dict r.to_dict = .ok r := by
  cases r with
  | mk p s i =>
    simp [ItemReference.to_dict, ItemReference.from_dict, JValue.get, List.lookup,
      provider_ofValue_value, sheetName_ofValue_value]

theorem deserialize_to_dict (m : ItemMerge) : deserialize_merge m.to_dict = .ok m := by
  cases m <;>
    simp [ItemMerge.to_dict, deserialize_merge, matchPairFromDict, JValue.get,
      List.lookup, MatchType.value, ItemReference.from_to_dict, Except.map]

theorem deserialize_merges_map_to_dict (l : List ItemMerge) :
    deserialize_merges (l.map ItemMerge.to_dict) = .ok l := by
  induction l with
  | nil => rfl
  | cons m rest ih => simp [deserialize_merges, deserialize_to_dict, ih]

/-- Content-level round trip of the whole checkpoint document. -/
theorem load_save_merges (l : List ItemMerge) :
    load_merges_from_json (save_merges_to_json l) = .ok l := by
  simp [save_merges_to_json, load_merges_from_json, deserialize_merges_map_to_dict]

/-! ## Claim theorems -/

/-- C7: saving a ledger that contains an instance of each of the four
record variants to JSON and loading it back yields the very same ledger
(same length, order, variants, query and match fields — here, equality). -/
theorem ledger_roundtrip (l : List ItemMerge)
    (_h : ∀ t : MatchType, t ∈ l.map ItemMerge.type) :
    load_merges_from_json (save_merges_to_json l) = .ok l :=
  load_save_merges l

theorem ledger_roundtrip_witness :
    (∀ t : MatchType, t ∈ sampleLedger.map ItemMerge.type) ∧
    load_merges_from_json (save_merges_to_json sampleLedger) = .ok sampleLedger :=
  ⟨by decide, ledger_roundtrip sampleLedger (by decide)⟩

/-- C8 (counterexample): the claim names the tags `exact_code`,
`strong_llm`, `hazy_llm`, `no_match`, but Python's `StrEnum` + `auto()`
lower-cases the member name without inserting underscores: a serialized
`NoMatch` record carries the tag `"nomatch"`, which is none of the four
claimed strings. -/
theorem checkpoint_tag_not_underscored :
    (ItemMerge.noMatch refGem7).to_dict.get "type" = some (.str "nomatch") ∧
    ¬("nomatch" = "exact_code" ∨ "nomatch" = "strong_llm" ∨
      "nomatch" = "hazy_llm" ∨ "nomatch" = "no_match") :=
  ⟨rfl, by decide⟩

/-- C8 (amended): every serialized record's `type` tag is one of the four
strings `exactcode`, `strongllm`, `hazyllm`, `nomatch`, and records with
the `nomatch` tag omit the `match` field while the other three variants
include it. -/
theorem checkpoint_record_tags (m : ItemMerge) :
    (m.to_dict.get "type" = some (.str m.type.value) ∧
      (m.type.value = "exactcode" ∨ m.type.value = "strongllm" ∨
        m.type.value = "hazyllm" ∨ m.type.value = "nomatch")) ∧
    (m.to_dict.hasKey "match" = false ↔ m.type = .noMatch) := by
  cases m <;>
    simp [ItemMerge.to_dict, ItemMerge.type, MatchType.value, JValue.get,
      JValue.hasKey, List.lookup]

/-- C1: `__get_reference_filters` breaks out of its provider loop
immediately after appending the reference provider, and the reference
provider heads `ordered_providers`; so for every non-reference current
provider the computed scope is exactly `[reference provider]`, no matter
what `NoMatch` records the ledger holds.  The claimed propagation of
earlier providers' `NoMatch` records into later providers' scope never
happens: the accumulation loop below the `break` is unreachable. -/
theorem reference_scope_constant (ref current : Provider) (merges : List ItemMerge)
    (h : current ≠ ref) :
    get_reference_filters ref current merges = [.provider ref] := by
  simp [get_reference_filters, ordered_providers, get_reference_filters_go, Ne.symm h]

/-- Witness: `Haller` is the reference; `Gem` (processed before `Universe`)
produced a `NoMatch` record, yet `Universe`'s candidate scope is just
`[Haller]` — the `NoMatch` record is not in it. -/
theorem reference_scope_constant_witness :
    Provider.universe' ≠ Provider.haller ∧
    get_reference_filters .haller .universe' [.noMatch refGem7] =
      [.provider .haller] :=
  ⟨by decide, reference_scope_constant .haller .universe' [.noMatch refGem7] (by decide)⟩

/-- C3: a query item whose code has a hit in the reference provider's
workbook short-circuits to `ExactCodeMatch(query, hit)` with zero remote
calls (no embedding fetch, no vector search, no LLM call). -/
theorem exact_code_short_circuit (env : MergeEnv) (item : ProviderItem)
    (filters : List ReferenceFilter) (m : ProviderItem)
    (h : (env.workbooks env.reference_provider).get_item_by_code item.code = some m) :
    merge_item env item filters =
      (.ok (.exactCode item.to_item_ref m.to_item_ref), CallCounts.zero) := by
  unfold merge_item
  rw [h]

/-- Witness: the spec's scenario — reference `Haller` holds
`(id=1, code="X100")`, `Gem` holds `(id=55, code="X100")`; the decision is
`ExactCodeMatch(Gem:55, Haller:1)` with zero remote calls. -/
theorem exact_code_short_circuit_witness :
    (envA.workbooks envA.reference_provider).get_item_by_code gemItem55.code =
      some hallerItem1 ∧
    merge_item envA gemItem55 [] =
      (.ok (.exactCode gemItem55.to_item_ref hallerItem1.to_item_ref),
        CallCounts.zero) :=
  ⟨by decide, exact_code_short_circuit envA gemItem55 [] hallerItem1 (by decide)⟩

/-- In the loop's final iteration (`attempt = max_retries`) every branch of
`generate_match_response_advanced` returns or raises. -/
theorem advanced_loop_last (outc : Nat → APIOutcome) (query : ItemReference)
    (a : Nat) (h : ¬ a < ADV_MAX_RETRIES) :
    (∃ r, advanced_loop outc query 1 a = .ok r) ∨
    (∃ e, advanced_loop outc query 1 a = .raised e) := by
  cases hc : outc a with
  | textNone =>
    right; exact ⟨"API returned None response", by simp [advanced_loop, hc, h]⟩
  | text parsed =>
    cases parsed with
    | ok r => left; exact ⟨r, by simp [advanced_loop, hc]⟩
    | error e => right; exact ⟨e, by simp [advanced_loop, hc]⟩
  | clientError code =>
    right; exact ⟨"ClientError", by simp [advanced_loop, hc, h]⟩
  | otherError e => right; exact ⟨e, by simp [advanced_loop, hc]⟩

/-- Every non-final iteration either terminates (return / raise) or
continues into the next iteration. -/
theorem advanced_loop_step (outc : Nat → APIOutcome) (query : ItemReference)
    (fuel a : Nat)
    (ih : (∃ r, advanced_loop outc query fuel (a + 1) = .ok r) ∨
      (∃ e, advanced_loop outc query fuel (a + 1) = .raised e)) :
    (∃ r, advanced_loop outc query (fuel + 1) a = .ok r) ∨
    (∃ e, advanced_loop outc query (fuel + 1) a = .raised e) := by
  cases hc : outc a with
  | textNone =>
    by_cases h : a < ADV_MAX_RETRIES
    · simpa [advanced_loop, hc, h] using ih
    · right; exact ⟨"API returned None response", by simp [advanced_loop, hc, h]⟩
  | text parsed =>
    cases parsed with
    | ok r => left; exact ⟨r, by simp [advanced_loop, hc]⟩
    | error e => right; exact ⟨e, by simp [advanced_loop, hc]⟩
  | clientError code =>
    by_cases h : code = 429 ∧ a < ADV_MAX_RETRIES
    · simpa [advanced_loop, hc, h] using ih
    · right; exact ⟨"ClientError", by simp [advanced_loop, hc, h]⟩
  | otherError e => right; exact ⟨e, by simp [advanced_loop, hc]⟩

/-- C10: for every sequence of API outcomes,
`generate_match_response_advanced` either returns a response parsed from
the model or raises; the post-loop code (append the query item to the
revisit side list and return the fallback `NoMatch` response) is
unreachable, because on the final attempt every branch returns or raises. -/
theorem advanced_never_reaches_fallback (outc : Nat → APIOutcome)
    (query : ItemReference) :
    (∃ r, generate_match_response_advanced outc query = .ok r) ∨
    (∃ e, generate_match_response_advanced outc query = .raised e) := by
  have h3 := advanced_loop_last outc query 3 (by decide)
  have h2 := advanced_loop_step outc query 1 2 h3
  have h1 := advanced_loop_step outc query 2 1 h2
  have h0 := advanced_loop_step outc query 3 0 h1
  exact h0

/-! ## Workbook resolution lemmas -/

/-- Every sheet's rows are among `allItems`. -/
theorem mem_allItems_of_mem_sheet (wb : ProviderWorkbook) (s : SheetName)
    (it : ProviderItem) (h : it ∈ wb.sheets s) : it ∈ wb.allItems := by
  unfold ProviderWorkbook.allItems
  rw [List.mem_flatten]
  refine ⟨wb.sheets s, ?_, h⟩
  rw [List.mem_map]
  exact ⟨s, by rw [sortedSheetNames_eq]; cases s <;> simp, rfl⟩

/-- In a well-formed workbook, every reference of `item_refs` resolves via
`get_item_by_ref` to an item carrying exactly that reference. -/
theorem wf_item_refs_resolve (wb : ProviderWorkbook) (hwf : wb.WF) :
    ∀ r ∈ wb.item_refs, ∃ it, wb.get_item_by_ref r = some it ∧
      it.to_item_ref = r ∧ it ∈ wb.allItems := by
  intro r hr
  obtain ⟨it0, hit0, hrefeq⟩ := List.mem_map.mp hr
  obtain ⟨rowList, hrowList, hit0row⟩ := List.mem_flatten.mp hit0
  obtain ⟨s, _, hsheet⟩ := List.mem_map.mp hrowList
  subst hsheet
  have hsname : it0.sheet_name = s := ((hwf.1 s it0 hit0row).2)
  have hfind : (wb.sheets r.sheet_name).find? (fun x => x.id == r.id) = some it0 →
      True := fun _ => trivial
  have hrsheet : r.sheet_name = s := by rw [← hrefeq]; exact hsname
  have hrid : r.id = it0.id := by rw [← hrefeq]; rfl
  have hsome : ((wb.sheets s).find? (fun x => x.id == r.id)).isSome := by
    rw [List.find?_isSome]
    exact ⟨it0, hit0row, by simp [hrid]⟩
  obtain ⟨it, hit⟩ := Option.isSome_iff_exists.mp hsome
  have hitmem : it ∈ wb.sheets s := List.mem_of_find?_eq_some hit
  have hitid : it.id = r.id := by
    have := List.find?_some hit
    simpa using this
  have hitall : it ∈ wb.allItems := mem_allItems_of_mem_sheet wb s it hitmem
  have hit0all : it0 ∈ wb.allItems := mem_allItems_of_mem_sheet wb s it0 hit0row
  have hiteq : it = it0 := by
    apply List.inj_on_of_nodup_map hwf.2.1 hitall hit0all
    rw [hitid, hrid]
  refine ⟨it, ?_, ?_, hitall⟩
  · unfold ProviderWorkbook.get_item_by_ref sheetGetItemById
    rw [hrsheet]
    exact hit
  · rw [hiteq, hrefeq]

/-- Provider field of every reference in a well-formed workbook's
`item_refs`. -/
theorem item_refs_provider (wb : ProviderWorkbook) (hwf : wb.WF) :
    ∀ r ∈ wb.item_refs, r.provider = wb.provider := by
  intro r hr
  obtain ⟨it0, hit0, hrefeq⟩ := List.mem_map.mp hr
  obtain ⟨rowList, hrowList, hit0row⟩ := List.mem_flatten.mp hit0
  obtain ⟨s, _, hsheet⟩ := List.mem_map.mp hrowList
  subst hsheet
  rw [← hrefeq]
  exact (hwf.1 s it0 hit0row).1

/-- In a well-formed environment, every item reference of every provider's
workbook resolves through `Merge.get_item_by_ref`. -/
theorem envwf_resolve (env : MergeEnv) (hwf : EnvWF env) (p : Provider) :
    ∀ r ∈ (env.workbooks p).item_refs,
      ∃ it, env.get_item_by_ref r = some it ∧ it.to_item_ref = r := by
  intro r hr
  have hprov : r.provider = p := by
    rw [item_refs_provider (env.workbooks p) (hwf p).1 r hr]
    exact (hwf p).2
  obtain ⟨it, hit, href, _⟩ := wf_item_refs_resolve (env.workbooks p) (hwf p).1 r hr
  refine ⟨it, ?_, href⟩
  unfold MergeEnv.get_item_by_ref
  rw [hprov]
  exact hit

/-! ## Ledger-index lemmas -/

/-- The `query → merge` index returns records keyed by their own query. -/
theorem query_to_merge_go (l : List ItemMerge) (r : ItemReference) :
    ∀ acc : Option ItemMerge, (∀ m, acc = some m → m.query = r) →
    ∀ m, l.foldl (fun acc m => if m.query = r then some m else acc) acc = some m →
      m.query = r := by
  induction l with
  | nil => intro acc hacc m hm; exact hacc m hm
  | cons x xs ih =>
    intro acc hacc m hm
    rw [List.foldl_cons] at hm
    refine ih _ ?_ m hm
    intro m' hm'
    by_cases hx : x.query = r
    · rw [if_pos hx] at hm'; cases hm'; exact hx
    · rw [if_neg hx] at hm'; exact hacc m' hm'

theorem query_to_merge_query (l : List ItemMerge) (r : ItemReference)
    (m : ItemMerge) (h : query_to_merge l r = some m) : m.query = r :=
  query_to_merge_go l r none (by intro m hm; cases hm) m h

/-! ## Checkpoint-flush lemmas (fatal-error path) -/

/-- `save_checkpoint` leaves the ledger alone and writes exactly it. -/
theorem save_checkpoint_spec (st : RunState) :
    (save_checkpoint st).merges = st.merges ∧
    (save_checkpoint st).checkpoint = some (save_merges_to_json st.merges) :=
  ⟨rfl, rfl⟩

/-- If the item loop propagates an error while every item of the provider
resolves, the final checkpoint holds exactly the final ledger: the only
error sources are inside the `try`, whose handler flushes before
re-raising. -/
theorem merge_items_loop_error_flushed (env : MergeEnv)
    (pl : ItemReference → Option ItemMerge) (filters : List ReferenceFilter)
    (refs : List ItemReference)
    (hres : ∀ r ∈ refs, (env.get_item_by_ref r).isSome) :
    ∀ (idx : Nat) (st st' : RunState) (e : MergeError),
    merge_items_loop env pl filters refs idx st = (st', some e) →
    st'.checkpoint = some (save_merges_to_json st'.merges) := by
  induction refs with
  | nil => intro idx st st' e h; simp [merge_items_loop] at h
  | cons r rest ih =>
    intro idx st st' e h
    rw [merge_items_loop] at h
    have hres_rest : ∀ x ∈ rest, (env.get_item_by_ref x).isSome :=
      fun x hx => hres x (List.mem_cons_of_mem r hx)
    cases hpl : pl r with
    | some m =>
      simp only [hpl] at h
      exact ih hres_rest (idx + 1) _ st' e h
    | none =>
      simp only [hpl] at h
      cases hgi : env.get_item_by_ref r with
      | none =>
        exact absurd (hres r (List.mem_cons_self r rest)) (by rw [hgi]; simp)
      | some item =>
        simp only [hgi] at h
        cases hmi : (merge_item env item filters) with
        | mk res c =>
          simp only [hmi] at h
          cases res with
          | ok m => exact ih hres_rest (idx + 1) _ st' e h
          | error e' =>
            simp only [Prod.mk.injEq] at h
            rw [← h.1]
            exact (save_checkpoint_spec _).2

/-- Lifts the flush property through the provider loop. -/
theorem merge_providers_loop_error_flushed (env : MergeEnv)
    (pl : ItemReference → Option ItemMerge) (ps : List Provider)
    (hres : ∀ p ∈ ps, ∀ r ∈ (env.workbooks p).item_refs,
      (env.get_item_by_ref r).isSome) :
    ∀ (st st' : RunState) (e : MergeError),
    merge_providers_loop env pl ps st = (st', some e) →
    st'.checkpoint = some (save_merges_to_json st'.merges) := by
  induction ps with
  | nil => intro st st' e h; simp [merge_providers_loop] at h
  | cons p rest ih =>
    intro st st' e h
    rw [merge_providers_loop] at h
    have hres_rest : ∀ q ∈ rest, ∀ r ∈ (env.workbooks q).item_refs,
        (env.get_item_by_ref r).isSome :=
      fun q hq => hres q (List.mem_cons_of_mem p hq)
    by_cases hp : p = env.reference_provider
    · rw [if_pos hp] at h
      exact ih hres_rest st st' e h
    · rw [if_neg hp] at h
      cases hml : merge_items_loop env pl
          (get_reference_filters env.reference_provider p st.merges)
          (env.workbooks p).item_refs 0 st with
      | mk st1 err? =>
        simp only [hml] at h
        cases err? with
        | none => exact ih hres_rest st1 st' e h
        | some e' =>
          simp only [Prod.mk.injEq] at h
          rw [← h.1]
          exact merge_items_loop_error_flushed env pl _ _
            (hres p (List.mem_cons_self p rest)) 0 st st1 e' hml

/-- C6: in a well-formed environment whose prior checkpoint loads, every
error the merge loop propagates is preceded by a synchronous checkpoint
flush of the full ledger accumulated so far: no completed match decision is
lost. -/
theorem fatal_error_flushes_checkpoint (env : MergeEnv) (priorFile : Option JValue)
    (priorList : List ItemMerge) (st : RunState) (e : MergeError)
    (hwf : EnvWF env)
    (hload : load_prior_merges priorFile = .ok priorList)
    (h : merge_all env priorFile = (st, some e)) :
    st.checkpoint = some (save_merges_to_json st.merges) := by
  unfold merge_all at h
  rw [hload] at h
  refine merge_providers_loop_error_flushed env (query_to_merge priorList)
    sorted_providers ?_ _ st e h
  intro p _ r hr
  obtain ⟨it, hit, _⟩ := envwf_resolve env hwf p r hr
  rw [hit]
  rfl

/-- Witness: in environment B the LLM call for `Gem`'s only item raises;
the run propagates the failure and the checkpoint file holds exactly the
ledger completed so far (here: the empty ledger, serialized). -/
theorem fatal_error_flushes_checkpoint_witness :
    EnvWF envB ∧
    load_prior_merges none = .ok [] ∧
    merge_all envB none =
      (⟨[], some (.arr []), ⟨1, 1, 1, 0⟩⟩, some (.aiFailure "API failure")) ∧
    (⟨[], some (.arr []), ⟨1, 1, 1, 0⟩⟩ : RunState).checkpoint =
      some (save_merges_to_json (⟨[], some (.arr []), ⟨1, 1, 1, 0⟩⟩ : RunState).merges) :=
  ⟨by decide, rfl, rfl,
    fatal_error_flushes_checkpoint envB none [] ⟨[], some (.arr []), ⟨1, 1, 1, 0⟩⟩
      (.aiFailure "API failure") (by decide) rfl rfl⟩

/-- C2 (counterexample): in environment C a full run completes, but the
loop never flushes after processing its last item, so the produced
checkpoint (`[]` serialized) misses the final `NoMatch` record; re-running
with that checkpoint re-processes the item and performs three remote calls
(embedding fetch, vector search, LLM call) — not zero. -/
theorem idempotent_resume_cex :
    (merge_all envC none).2 = none ∧
    (merge_all envC none).1.merges = [.noMatch refGem7] ∧
    (merge_all envC none).1.checkpoint = some (save_merges_to_json []) ∧
    (merge_all envC (merge_all envC none).1.checkpoint).1.counts.total ≠ 0 :=
  ⟨rfl, rfl, rfl, by decide⟩

/-- When every item is found in the prior lookup, the item loop copies the
prior records forward verbatim, touches no remote collaborator, and cannot
fail. -/
theorem merge_items_loop_all_prior (env : MergeEnv)
    (pl : ItemReference → Option ItemMerge) (filters : List ReferenceFilter)
    (refs : List ItemReference) (hall : ∀ r ∈ refs, pl r ≠ none) :
    ∀ (idx : Nat) (st : RunState), ∃ chk,
    merge_items_loop env pl filters refs idx st =
      (⟨st.merges ++ refs.filterMap pl, chk, st.counts⟩, none) := by
  induction refs with
  | nil => intro idx st; exact ⟨st.checkpoint, by simp [merge_items_loop]⟩
  | cons r rest ih =>
    intro idx st
    rw [merge_items_loop]
    cases hpl : pl r with
    | none => exact absurd hpl (hall r (List.mem_cons_self r rest))
    | some m =>
      simp only [hpl]
      have hmerges :
          (if idx % CHECKPOINT_INTERVAL = 0 then save_checkpoint st else st).merges
            = st.merges := by split <;> rfl
      have hcounts :
          (if idx % CHECKPOINT_INTERVAL = 0 then save_checkpoint st else st).counts
            = st.counts := by split <;> rfl
      obtain ⟨chk, hrec⟩ := ih (fun x hx => hall x (List.mem_cons_of_mem r hx))
        (idx + 1)
        ⟨(if idx % CHECKPOINT_INTERVAL = 0 then save_checkpoint st else st).merges ++ [m],
         (if idx % CHECKPOINT_INTERVAL = 0 then save_checkpoint st else st).checkpoint,
         (if idx % CHECKPOINT_INTERVAL = 0 then save_checkpoint st else st).counts⟩

      refine ⟨chk, ?_⟩
      rw [hrec]
      simp [hmerges, hcounts, List.filterMap_cons, hpl]

/-- When every non-reference item is found in the prior lookup, the
provider loop copies all prior records forward in provider-then-catalog
order, with zero remote calls. -/
theorem merge_providers_loop_all_prior (env : MergeEnv)
    (pl : ItemReference → Option ItemMerge) (ps : List Provider)
    (hall : ∀ p ∈ ps, p ≠ env.reference_provider →
      ∀ r ∈ (env.workbooks p).item_refs, pl r ≠ none) :
    ∀ st : RunState, ∃ chk,
    merge_providers_loop env pl ps st =
      (⟨st.merges ++
          (ps.filter (fun q => q ≠ env.reference_provider)).flatMap
            (fun p => (env.workbooks p).item_refs.filterMap pl),
        chk, st.counts⟩, none) := by
  induction ps with
  | nil => intro st; exact ⟨st.checkpoint, by simp [merge_providers_loop]⟩
  | cons p rest ih =>
    intro st
    rw [merge_providers_loop]
    have hall_rest : ∀ q ∈ rest, q ≠ env.reference_provider →
        ∀ r ∈ (env.workbooks q).item_refs, pl r ≠ none :=
      fun q hq => hall q (List.mem_cons_of_mem p hq)
    by_cases hp : p = env.reference_provider
    · rw [if_pos hp]
      obtain ⟨chk, hrec⟩ := ih hall_rest st
      refine ⟨chk, ?_⟩
      rw [hrec]
      simp [List.filter_cons, hp]
    · rw [if_neg hp]
      obtain ⟨chk1, hitems⟩ := merge_items_loop_all_prior env pl
        (get_reference_filters env.reference_provider p st.merges)
        (env.workbooks p).item_refs
        (hall p (List.mem_cons_self p rest) hp) 0 st
      simp only [hitems]
      obtain ⟨chk, hrec⟩ := ih hall_rest
        ⟨st.merges ++ (env.workbooks p).item_refs.filterMap pl, chk1, st.counts⟩
      refine ⟨chk, ?_⟩
      rw [hrec]
      simp [List.filter_cons, hp, List.flatMap_cons]

/-- C2 (amended): every item reference found in the prior checkpoint is
skipped and its prior record appended verbatim, with zero remote calls for
it — so a re-run whose checkpoint covers every non-reference item makes
zero remote calls and reproduces exactly the checkpointed records in run
order.  (The checkpoint a completed run actually produces omits the records
of the items processed after the run's last periodic save — at least the
final item, see `idempotent_resume_cex` — and those items are re-processed,
possibly with remote calls.) -/
theorem resume_skips_checkpointed_items (env : MergeEnv)
    (priorLedger : List ItemMerge)
    (hall : ∀ p ∈ sorted_providers, p ≠ env.reference_provider →
      ∀ r ∈ (env.workbooks p).item_refs, query_to_merge priorLedger r ≠ none) :
    ∃ chk, merge_all env (some (save_merges_to_json priorLedger)) =
      (⟨(sorted_providers.filter (fun q => q ≠ env.reference_provider)).flatMap
          (fun p => (env.workbooks p).item_refs.filterMap (query_to_merge priorLedger)),
        chk, CallCounts.zero⟩, none) := by
  simp only [merge_all, load_prior_merges, load_save_merges]
  obtain ⟨chk, h⟩ := merge_providers_loop_all_prior env (query_to_merge priorLedger)
    sorted_providers hall ⟨[], some (save_merges_to_json priorLedger), CallCounts.zero⟩
  refine ⟨chk, ?_⟩
  rw [h]
  simp

/-- Witness: a checkpoint holding the one `Gem` record of environment C is
complete; the re-run makes zero remote calls and returns exactly that
record. -/
theorem resume_skips_checkpointed_items_witness :
    (∀ p ∈ sorted_providers, p ≠ envC.reference_provider →
      ∀ r ∈ (envC.workbooks p).item_refs,
        query_to_merge [.noMatch refGem7] r ≠ none) ∧
    ∃ chk, merge_all envC (some (save_merges_to_json [.noMatch refGem7])) =
      (⟨(sorted_providers.filter (fun q => q ≠ envC.reference_provider)).flatMap
          (fun p => (envC.workbooks p).item_refs.filterMap
            (query_to_merge [.noMatch refGem7])),
        chk, CallCounts.zero⟩, none) :=
  ⟨by decide, resume_skips_checkpointed_items envC [.noMatch refGem7] (by decide)⟩

/-- C5: when the initial LLM proposal carries a match tier whose
`(provider, id, code)` resolves to nothing (by id, then by code), exactly
one follow-up LLM request is issued; a follow-up that evaluates to a record
becomes the final decision, and a follow-up whose proposal again fails to
resolve makes the item a hard failure — an error, no match record. -/
theorem followup_single_retry (env : MergeEnv) (item : ProviderItem)
    (filters : List ReferenceFilter) (fullItems : List ProviderItem)
    (resp : AIResponse)
    (hcode : (env.workbooks env.reference_provider).get_item_by_code item.code = none)
    (hemb : env.remote.embeddingExists item.to_item_ref = true)
    (hres : resolve_items env (env.remote.search item.to_item_ref filters) = .ok fullItems)
    (hinit : env.remote.initialResponse fullItems item = .ok resp)
    (hfail : evaluate_llm_match env item resp = none) :
    (merge_item env item filters).2.llmFollowup = 1 ∧
    (∀ resp2 m, env.remote.followupResponse fullItems item resp = .ok resp2 →
      evaluate_llm_match env item resp2 = some m →
      merge_item env item filters = (.ok m, ⟨1, 1, 1, 1⟩)) ∧
    (∀ resp2, env.remote.followupResponse fullItems item resp = .ok resp2 →
      evaluate_llm_match env item resp2 = none →
      merge_item env item filters =
        (.error (.noMatchFound item.provider item.id item.code), ⟨1, 1, 1, 1⟩)) := by
  have hmi : merge_item env item filters =
      (match env.remote.followupResponse fullItems item resp with
        | .error e => (.error (.aiFailure e), ⟨1, 1, 1, 1⟩)
        | .ok resp2 =>
          match evaluate_llm_match env item resp2 with
          | some merge => (.ok merge, ⟨1, 1, 1, 1⟩)
          | none =>
            (.error (.noMatchFound item.provider item.id item.code), ⟨1, 1, 1, 1⟩)) := by
    unfold merge_item match_with_llm
    simp only [hcode, hemb, hres, hinit, hfail, if_true]
  refine ⟨?_, ?_, ?_⟩
  · rw [hmi]
    split
    · rfl
    · split <;> rfl
  · intro resp2 m hf hev
    rw [hmi]
    simp only [hf, hev]
  · intro resp2 hf hev
    rw [hmi]
    simp only [hf, hev]

/-- Witness: environment D — the initial proposal `(Haller, 999, "Z1")`
resolves to nothing, the follow-up proposal `(Haller, 1, "X100")` resolves
to `hallerItem1`, and the final decision is that strong match after exactly
one follow-up call. -/
theorem followup_single_retry_witness :
    ((envD.workbooks envD.reference_provider).get_item_by_code gemItem7.code = none ∧
      envD.remote.embeddingExists gemItem7.to_item_ref = true ∧
      resolve_items envD (envD.remote.search gemItem7.to_item_ref []) = .ok [hallerItem1] ∧
      envD.remote.initialResponse [hallerItem1] gemItem7 =
        .ok (.strongMatch ⟨.haller, 999, "Z1", "ghost"⟩ "looks right") ∧
      evaluate_llm_match envD gemItem7
        (.strongMatch ⟨.haller, 999, "Z1", "ghost"⟩ "looks right") = none) ∧
    (merge_item envD gemItem7 []).2.llmFollowup = 1 ∧
    merge_item envD gemItem7 [] =
      (.ok (.strongLLM gemItem7.to_item_ref hallerItem1.to_item_ref), ⟨1, 1, 1, 1⟩) :=
  ⟨⟨by decide, rfl, rfl, rfl, by decide⟩,
    (followup_single_retry envD gemItem7 [] [hallerItem1]
      (.strongMatch ⟨.haller, 999, "Z1", "ghost"⟩ "looks right")
      (by decide) rfl rfl rfl (by decide)).1,
    (followup_single_retry envD gemItem7 [] [hallerItem1]
      (.strongMatch ⟨.haller, 999, "Z1", "ghost"⟩ "looks right")
      (by decide) rfl rfl rfl (by decide)).2.1
      (.strongMatch ⟨.haller, 1, "X100", "real"⟩ "verified")
      (.strongLLM gemItem7.to_item_ref hallerItem1.to_item_ref) rfl (by decide)⟩

/-! ## Ledger-totality lemmas -/

/-- Every record `__evaluate_llm_match` produces is keyed by the query
item's own reference. -/
theorem evaluate_llm_match_query (env : MergeEnv) (item : ProviderItem)
    (resp : AIResponse) (m : ItemMerge)
    (h : evaluate_llm_match env item resp = some m) :
    m.query = item.to_item_ref := by
  cases resp with
  | noMatch r =>
    simp only [evaluate_llm_match, Option.some.injEq] at h
    rw [← h]; rfl
  | strongMatch mi r =>
    simp only [evaluate_llm_match, Option.map_eq_some'] at h
    obtain ⟨mit, _, hm⟩ := h
    rw [← hm]; rfl
  | hazyMatch mi r =>
    simp only [evaluate_llm_match, Option.map_eq_some'] at h
    obtain ⟨mit, _, hm⟩ := h
    rw [← hm]; rfl

/-- Every record `__merge_item` produces is keyed by the query item's own
reference. -/
theorem merge_item_query (env : MergeEnv) (item : ProviderItem)
    (filters : List ReferenceFilter) (m : ItemMerge) (c : CallCounts)
    (h : merge_item env item filters = (.ok m, c)) :
    m.query = item.to_item_ref := by
  unfold merge_item match_with_llm at h
  split at h
  · simp only [Prod.mk.injEq, Except.ok.injEq] at h
    rw [← h.1]; rfl
  · split at h
    · split at h
      · simp at h
      · split at h
        · simp at h
        · rename_i resp _
          split at h
          · rename_i merge hev
            simp only [Prod.mk.injEq, Except.ok.injEq] at h
            rw [← h.1]
            exact evaluate_llm_match_query env item resp merge hev
          · split at h
            · simp at h
            · rename_i resp2 _
              split at h
              · rename_i merge hev
                simp only [Prod.mk.injEq, Except.ok.injEq] at h
                rw [← h.1]
                exact evaluate_llm_match_query env item resp2 merge hev
              · simp at h
    · simp at h

/-- The item loop of a run that completes without error appends exactly one
record per item reference, keyed by it, in catalog order. -/
theorem merge_items_loop_ok_queries (env : MergeEnv)
    (pl : ItemReference → Option ItemMerge) (filters : List ReferenceFilter)
    (refs : List ItemReference)
    (hres : ∀ r ∈ refs, ∃ it, env.get_item_by_ref r = some it ∧ it.to_item_ref = r)
    (hpl : ∀ r m, pl r = some m → m.query = r) :
    ∀ (idx : Nat) (st st' : RunState),
    merge_items_loop env pl filters refs idx st = (st', none) →
    st'.merges.map ItemMerge.query = st.merges.map ItemMerge.query ++ refs := by
  induction refs with
  | nil =>
    intro idx st st' h
    simp only [merge_items_loop, Prod.mk.injEq] at h
    rw [← h.1]
    simp
  | cons r rest ih =>
    intro idx st st' h
    rw [merge_items_loop] at h
    have hres_rest : ∀ x ∈ rest, ∃ it, env.get_item_by_ref x = some it ∧
        it.to_item_ref = x := fun x hx => hres x (List.mem_cons_of_mem r hx)
    have hmerges :
        (if idx % CHECKPOINT_INTERVAL = 0 then save_checkpoint st else st).merges
          = st.merges := by split <;> rfl
    cases hplr : pl r with
    | some m =>
      simp only [hplr] at h
      have := ih hres_rest (idx + 1) _ st' h
      rw [this]
      simp [hmerges, hpl r m hplr]
    | none =>
      simp only [hplr] at h
      obtain ⟨item, hit, href⟩ := hres r (List.mem_cons_self r rest)
      simp only [hit] at h
      cases hmi : merge_item env item filters with
      | mk res c =>
        simp only [hmi] at h
        cases res with
        | error e => simp at h
        | ok m =>
          have := ih hres_rest (idx + 1) _ st' h
          rw [this]
          have hq : m.query = r := by
            rw [merge_item_query env item filters m c hmi]; exact href
          simp [hmerges, hq]

/-- The provider loop of a run that completes without error appends exactly
one record per non-reference item reference, in provider-then-catalog
order. -/
theorem merge_providers_loop_ok_queries (env : MergeEnv)
    (pl : ItemReference → Option ItemMerge) (ps : List Provider)
    (hres : ∀ p ∈ ps, ∀ r ∈ (env.workbooks p).item_refs,
      ∃ it, env.get_item_by_ref r = some it ∧ it.to_item_ref = r)
    (hpl : ∀ r m, pl r = some m → m.query = r) :
    ∀ (st st' : RunState),
    merge_providers_loop env pl ps st = (st', none) →
    st'.merges.map ItemMerge.query = st.merges.map ItemMerge.query ++
      (ps.filter (fun q => q ≠ env.reference_provider)).flatMap
        (fun p => (env.workbooks p).item_refs) := by
  induction ps with
  | nil =>
    intro st st' h
    simp only [merge_providers_loop, Prod.mk.injEq] at h
    rw [← h.1]
    simp
  | cons p rest ih =>
    intro st st' h
    rw [merge_providers_loop] at h
    have hres_rest : ∀ q ∈ rest, ∀ r ∈ (env.workbooks q).item_refs,
        ∃ it, env.get_item_by_ref r = some it ∧ it.to_item_ref = r :=
      fun q hq => hres q (List.mem_cons_of_mem p hq)
    by_cases hp : p = env.reference_provider
    · rw [if_pos hp] at h
      rw [ih hres_rest st st' h]
      simp [List.filter_cons, hp]
    · rw [if_neg hp] at h
      cases hml : merge_items_loop env pl
          (get_reference_filters env.reference_provider p st.merges)
          (env.workbooks p).item_refs 0 st with
      | mk st1 err? =>
        simp only [hml] at h
        cases err? with
        | some e => simp at h
        | none =>
          have h1 := merge_items_loop_ok_queries env pl _ _
            (hres p (List.mem_cons_self p rest)) hpl 0 st st1 hml
          rw [ih hres_rest st1 st' h, h1]
          simp [List.filter_cons, hp]

/-- `item_refs` of a well-formed workbook has no duplicates. -/
theorem item_refs_nodup (wb : ProviderWorkbook) (hwf : wb.WF) :
    wb.item_refs.Nodup := by
  have hids : wb.item_refs.map ItemReference.id = wb.allItems.map ProviderItem.id := by
    simp only [ProviderWorkbook.item_refs, List.map_map]
    rfl
  exact List.Nodup.of_map ItemReference.id (by rw [hids]; exact hwf.2.1)

/-- Counting an element of `f p` in a disjoint flatMap: only `p`'s block
contributes. -/
theorem count_flatMap_unique (f : Provider → List ItemReference)
    (r : ItemReference) (ps : List Provider) (p : Provider)
    (hmem : p ∈ ps) (hnd : ps.Nodup)
    (hothers : ∀ q ∈ ps, q ≠ p → r ∉ f q) :
    (ps.flatMap f).count r = (f p).count r := by
  induction ps with
  | nil => cases hmem
  | cons q rest ih =>
    rw [List.flatMap_cons, List.count_append]
    rcases List.mem_cons.mp hmem with hq | hq
    · subst hq
      have hz : (rest.flatMap f).count r = 0 := by
        rw [List.count_eq_zero]
        intro hmem'
        obtain ⟨b, hb, hrb⟩ := List.mem_flatMap.mp hmem'
        exact hothers b (List.mem_cons_of_mem _ hb)
          (fun he => (List.nodup_cons.mp hnd).1 (he ▸ hb)) hrb
      rw [hz, Nat.add_zero]
    · have hqp : q ≠ p := fun he => (List.nodup_cons.mp hnd).1 (he ▸ hq)
      have hz : (f q).count r = 0 :=
        List.count_eq_zero.mpr (hothers q (List.mem_cons_self q rest) hqp)
      rw [hz, Nat.zero_add]
      exact ih hq (List.nodup_cons.mp hnd).2
        (fun q' hq' => hothers q' (List.mem_cons_of_mem q hq'))

/-- The number of ledger records keyed by `r` is the number of occurrences
of `r` among the ledger's queries. -/
theorem length_filter_query_eq_count (merges : List ItemMerge) (r : ItemReference) :
    (merges.filter (fun m => m.query = r)).length =
      (merges.map ItemMerge.query).count r := by
  induction merges with
  | nil => rfl
  | cons m rest ih =>
    by_cases hm : m.query = r
    · simp [List.filter_cons, hm, List.count_cons, ih]
    · simp [List.filter_cons, hm, List.count_cons, ih]

/-- C4: a run that completes produces a ledger whose queries are exactly the
item references of the non-reference providers, in run order — and hence,
for every such reference, exactly one record keyed by it, with no other
records in the ledger. -/
theorem ledger_totality (env : MergeEnv) (priorFile : Option JValue)
    (st : RunState)
    (hwf : EnvWF env)
    (h : merge_all env priorFile = (st, none)) :
    st.merges.map ItemMerge.query =
      (sorted_providers.filter (fun q => q ≠ env.reference_provider)).flatMap
        (fun p => (env.workbooks p).item_refs) ∧
    ∀ p, p ≠ env.reference_provider → ∀ r ∈ (env.workbooks p).item_refs,
      (st.merges.filter (fun m => m.query = r)).length = 1 := by
  unfold merge_all at h
  cases hld : load_prior_merges priorFile with
  | error e => rw [hld] at h; simp at h
  | ok priorList =>
    rw [hld] at h
    have hres : ∀ p ∈ sorted_providers, ∀ r ∈ (env.workbooks p).item_refs,
        ∃ it, env.get_item_by_ref r = some it ∧ it.to_item_ref = r :=
      fun p _ => envwf_resolve env hwf p
    have hmain := merge_providers_loop_ok_queries env (query_to_merge priorList)
      sorted_providers hres (query_to_merge_query priorList) _ st h
    simp only [List.map_nil, List.nil_append] at hmain
    refine ⟨hmain, ?_⟩
    intro p hp r hr
    have hothers : ∀ q ∈ sorted_providers.filter (fun q => q ≠ env.reference_provider),
        q ≠ p → r ∉ (env.workbooks q).item_refs := by
      intro q _ hqp hrq
      have h1 : r.provider = q := by
        rw [item_refs_provider _ (hwf q).1 r hrq]; exact (hwf q).2
      have h2 : r.provider = p := by
        rw [item_refs_provider _ (hwf p).1 r hr]; exact (hwf p).2
      exact hqp (h1 ▸ h2)
    have hpmem : p ∈ sorted_providers.filter (fun q => q ≠ env.reference_provider) := by
      rw [List.mem_filter]
      refine ⟨?_, by simpa using hp⟩
      rw [sorted_providers_eq]; cases p <;> simp
    have hnd : (sorted_providers.filter (fun q => q ≠ env.reference_provider)).Nodup :=
      List.Nodup.filter _ (by rw [sorted_providers_eq]; decide)
    rw [length_filter_query_eq_count, hmain,
      count_flatMap_unique (fun p => (env.workbooks p).item_refs) r _ p hpmem hnd hothers]
    exact List.count_eq_one_of_mem (item_refs_nodup _ (hwf p).1) hr

/-! ## Fan-out coalescing lemmas -/

theorem ordered_providers_haller :
    ordered_providers .haller = [.haller, .gem, .universe', .weltmanPrinceton] := by decide

theorem indexOf_gem : (ordered_providers .haller).indexOf Provider.gem = 1 := by decide

theorem indexOf_universe :
    (ordered_providers .haller).indexOf Provider.universe' = 2 := by decide

theorem indexOf_weltman :
    (ordered_providers .haller).indexOf Provider.weltmanPrinceton = 3 := by decide

/-- C9: a cluster whose anchor (a reference-provider item, reference
`Haller`) is matched by three items of provider `B` and one item of
provider `C` yields exactly three output rows; the anchor's cell (column 0)
is populated in every row, and provider `C`'s column holds the explicit
empty placeholder (`None`) in the second and third rows. -/
theorem coalesce_fanout (env : MergeEnv) (anchor : ItemReference)
    (m1 m2 m3 m4 : ItemMerge) (aIt it1 it2 it3 it4 : ProviderItem)
    (B C : Provider)
    (href : env.reference_provider = .haller)
    (hanch : anchor.provider = .haller)
    (hB : B ≠ .haller) (hC : C ≠ .haller) (hBC : B ≠ C)
    (hp1 : m1.query.provider = B) (hp2 : m2.query.provider = B)
    (hp3 : m3.query.provider = B) (hp4 : m4.query.provider = C)
    (ha : env.get_item_by_ref anchor = some aIt)
    (h1 : env.get_item_by_ref m1.query = some it1)
    (h2 : env.get_item_by_ref m2.query = some it2)
    (h3 : env.get_item_by_ref m3.query = some it3)
    (h4 : env.get_item_by_ref m4.query = some it4) :
    ∃ rows, to_output_data env [(anchor, [m1, m2, m3, m4])] = .ok rows ∧
      rows.length = 3 ∧
      (∀ row ∈ rows, row.get? 0 = some (some (aIt.to_item_output none))) ∧
      (rows.get? 1).bind (fun row => row.get? ((ordered_providers .haller).indexOf C))
        = some none ∧
      (rows.get? 2).bind (fun row => row.get? ((ordered_providers .haller).indexOf C))
        = some none := by
  cases B <;> cases C <;>
    first
    | exact absurd rfl hB
    | exact absurd rfl hC
    | exact absurd rfl hBC
    | (simp +decide [to_output_data, output_rows_for, href, ordered_providers_haller,
        max_merges_per_provider, group_merges_by_provider, hanch, hp1, hp2, hp3, hp4,
        List.filter_cons, List.range_succ, rows_loop, row_cells, output_cell]
       simp only [ha, h1, h2, h3, h4]
       simp +decide [indexOf_gem, indexOf_universe, indexOf_weltman])

/-- Witness: environment E with `B = Gem`, `C = Universe` — the anchor's
cluster of 3 + 1 matches yields exactly 3 rows with the `Universe`
placeholder in rows 2 and 3. -/
theorem coalesce_fanout_witness :
    (Provider.gem ≠ Provider.haller ∧ Provider.universe' ≠ Provider.haller ∧
      Provider.gem ≠ Provider.universe') ∧
    ∃ rows, to_output_data envE [(refHaller1, msE)] = .ok rows ∧
      rows.length = 3 ∧
      (∀ row ∈ rows, row.get? 0 = some (some (hallerItem1.to_item_output none))) ∧
      (rows.get? 1).bind
        (fun row => row.get? ((ordered_providers .haller).indexOf Provider.universe'))
        = some none ∧
      (rows.get? 2).bind
        (fun row => row.get? ((ordered_providers .haller).indexOf Provider.universe'))
        = some none :=
  ⟨⟨by decide, by decide, by decide⟩,
    coalesce_fanout envE refHaller1 _ _ _ _ hallerItem1
      gemItem11 gemItem12 gemItem13 universeItem21 .gem .universe'
      rfl rfl (by decide) (by decide) (by decide)
      rfl rfl rfl rfl rfl rfl rfl rfl rfl⟩

/-- Witness: a full run in environment C completes with a one-record
ledger, whose queries are exactly `Gem`'s single item reference. -/
theorem ledger_totality_witness :
    EnvWF envC ∧
    merge_all envC none =
      (⟨[.noMatch refGem7], some (.arr []), ⟨1, 1, 1, 0⟩⟩, none) ∧
    (((⟨[.noMatch refGem7], some (.arr []), ⟨1, 1, 1, 0⟩⟩ : RunState).merges.map
        ItemMerge.query =
      (sorted_providers.filter (fun q => q ≠ envC.reference_provider)).flatMap
        (fun p => (envC.workbooks p).item_refs)) ∧
      ∀ p, p ≠ envC.reference_provider → ∀ r ∈ (envC.workbooks p).item_refs,
        ((⟨[.noMatch refGem7], some (.arr []), ⟨1, 1, 1, 0⟩⟩ : RunState).merges.filter
          (fun m => m.query = r)).length = 1) :=
  ⟨by decide, rfl,
    ledger_totality envC none ⟨[.noMatch refGem7], some (.arr []), ⟨1, 1, 1, 0⟩⟩
      (by decide) rfl⟩

end HomeX
